import Mathlib

/-!
A shallow embedding of `src/price_apis.py` (the cryptoticker repository).

The module defines a registry (`API_CLASS_MAP` / `get_api_cls`) and four
adapter classes (`CoinMarketCap`, `CoinGecko`, `FinnHub`, `AlphaVantage`)
deriving from `PriceAPI`.  Each adapter is constructed with
`(symbols, currency, stocks)`, validates the currency, reads one API key
from the process environment, and `fetch_price_data` parses provider JSON
responses into records `{symbol, price, change_24h}`.

Embedding conventions:
- JSON numbers are modelled as rationals (`Rat`); the numeric values in the
  claims are far from the decimal rounding boundaries where IEEE doubles
  and exact rationals could format differently.
- Python `f"{x:,.2f}"` / `f"{x:.1f}"` formatting is modelled by
  `fmtF2comma` / `fmtF1` below (round to nearest, scaled floor of x + 1/2,
  comma grouping of the integer part for the former).
- Possibly-missing JSON keys become `Option` fields; a chain of dict
  accesses that can only fail with `KeyError` is flattened to one `Option`.
- Python exceptions become the `PyError` type; a function that can raise
  returns `Except PyError`.  A bare `return` (Python `None`) is `none` of
  an `Option` result.
- Environment reads and (potential) network calls during construction are
  recorded in an explicit `Effect` trace.
-/

-- Batteries seals the arithmetic on `Rat`; reopen it so that concrete
-- scenarios evaluate by `decide`.
attribute [local semireducible] Rat.ofScientific Rat.mul Rat.add Rat.sub Rat.inv

-- Keep the Python parameter names (`self`, ...) even where the embedded
-- method does not use them.
set_option linter.unusedVariables false

/-- Decidable equality for `Except`, so that concrete runs of the fallible
operations can be checked by `decide`. -/
instance {ε α : Type} [DecidableEq ε] [DecidableEq α] : DecidableEq (Except ε α) := fun x y =>
  match x, y with
  | .ok a, .ok b =>
    match decEq a b with
    | .isTrue h => .isTrue (h ▸ rfl)
    | .isFalse h => .isFalse (fun hc => h (Except.ok.inj hc))
  | .error a, .error b =>
    match decEq a b with
    | .isTrue h => .isTrue (h ▸ rfl)
    | .isFalse h => .isFalse (fun hc => h (Except.error.inj hc))
  | .ok _, .error _ => .isFalse (fun hc => Except.noConfusion hc)
  | .error _, .ok _ => .isFalse (fun hc => Except.noConfusion hc)

/-- Python exception values raised by the code under study. -/
inductive PyError where
  | RuntimeError (msg : String)
  | ValueError (msg : String)
  | KeyError (key : String)
  | AttributeError (name : String)
  | JSONDecodeError
  | ZeroDivisionError
deriving DecidableEq

/-- Observable side effects of adapter construction. -/
inductive Effect where
  | envRead (name : String)
  | httpGet (url : String)
deriving DecidableEq

/-- The normalized output record `dict(symbol=.., price=.., change_24h=..)`. -/
structure PriceRecord where
  symbol : String
  price : String
  change_24h : String
deriving DecidableEq

/-- The decimal digit character for `m % 10`. -/
def digitChar (m : Nat) : Char := Char.ofNat (48 + m % 10)

/-- Reversed decimal digits of `n` (least significant first); fuel-based so
that it reduces definitionally.  `natDigitsRev` supplies sufficient fuel. -/
def natDigitsRevAux : Nat → Nat → List Char
  | 0, _ => []
  | fuel + 1, n =>
    if n < 10 then [digitChar n]
    else digitChar (n % 10) :: natDigitsRevAux fuel (n / 10)

/-- Reversed decimal digits of `n` (least significant first). -/
def natDigitsRev (n : Nat) : List Char := natDigitsRevAux (n + 1) n

/-- Exactly `k` reversed decimal digits of `m`, zero padded. -/
def padDigitsRev : Nat → Nat → List Char
  | 0, _ => []
  | k + 1, m => digitChar (m % 10) :: padDigitsRev k (m / 10)

/-- Insert a comma after every three characters of a reversed digit list,
mirroring the `,` option of Python format specs. -/
def commaGroupRev : List Char → List Char
  | [] => []
  | [a] => [a]
  | [a, b] => [a, b]
  | [a, b, c] => [a, b, c]
  | a :: b :: c :: d :: rest => a :: b :: c :: ',' :: commaGroupRev (d :: rest)

/-- Decimal string of a natural number. -/
def natStr (n : Nat) : String := ⟨(natDigitsRev n).reverse⟩

/-- Decimal string of a natural number with comma grouping. -/
def natStrGrouped (n : Nat) : String := ⟨(commaGroupRev (natDigitsRev n)).reverse⟩

/-- Round `q * 10 ^ nd` to the nearest integer (floor of x + 1/2, written
directly on the numerator and denominator so that it evaluates by kernel
reduction), the rounding used when Python formats a value with `nd`
decimal places. -/
def pyRound (nd : Nat) (q : Rat) : Int :=
  (2 * q.num * (10 : Int) ^ nd + (q.den : Int)).fdiv (2 * (q.den : Int))

/-- Character list of Python `f"{q:,.2f}"`: optional sign, comma-grouped
integer part, and exactly two fractional digits. -/
def fmtF2commaChars (q : Rat) : List Char :=
  let m := pyRound 2 q
  let a := m.natAbs
  (if m < 0 then ['-'] else []) ++ (commaGroupRev (natDigitsRev (a / 100))).reverse
    ++ '.' :: (padDigitsRev 2 (a % 100)).reverse

/-- Python `f"{q:,.2f}"`. -/
def fmtF2comma (q : Rat) : String := ⟨fmtF2commaChars q⟩

/-- Character list of Python `f"{q:.1f}"`: optional sign, ungrouped integer
part, and exactly one fractional digit. -/
def fmtF1Chars (q : Rat) : List Char :=
  let m := pyRound 1 q
  let a := m.natAbs
  (if m < 0 then ['-'] else []) ++ (natDigitsRev (a / 10)).reverse
    ++ ['.', digitChar (a % 10)]

/-- Python `f"{q:.1f}"`. -/
def fmtF1 (q : Rat) : String := ⟨fmtF1Chars q⟩

/-- Python `s.split(',')` on the character list: splits at every comma;
the empty string yields `[[]]` (one empty group), exactly as in Python. -/
def pySplitCommaChars : List Char → List (List Char)
  | [] => [[]]
  | c :: rest =>
    if c = ',' then [] :: pySplitCommaChars rest
    else
      match pySplitCommaChars rest with
      | [] => [[c]]
      | g :: gs => (c :: g) :: gs

/-- Python `s.split(',')` (structurally recursive, unlike
`String.splitOn`, so concrete runs reduce in the kernel). -/
def pySplitComma (s : String) : List String :=
  (pySplitCommaChars s.data).map (fun cs => ⟨cs⟩)

/-- The single-quote character, used by the Python `repr` of a string. -/
def sQuote : String := String.singleton (Char.ofNat 39)

/-- Python `str` of a list of strings, as interpolated into the
`validate_currency` error message: for example `["usd"]` prints as a
bracketed, quoted, comma separated list. -/
def pyStrListRepr (l : List String) : String :=
  "[" ++ String.intercalate ", " (l.map (fun s => sQuote ++ s ++ sQuote)) ++ "]"

/-! ## Provider registry (`API_CLASS_MAP`, `get_api_cls`) -/

/-- The four adapter classes defined by the module. -/
inductive ApiCls where
  | coinMarketCap
  | coinGecko
  | finnHub
  | alphaVantage
deriving DecidableEq

/-- `API_CLASS_MAP = {'coinmarketcap': 'CoinMarketCap', 'coingecko':
'CoinGecko', 'alphavantage': 'AlphaVantage'}`. -/
def API_CLASS_MAP : List (String × String) :=
  [("coinmarketcap", "CoinMarketCap"), ("coingecko", "CoinGecko"),
   ("alphavantage", "AlphaVantage")]

/-- `getattr(sys.modules[__name__], clsName)`: the classes defined at module
level, looked up by class name; an unknown attribute raises
`AttributeError`. -/
def moduleClass (clsName : String) : Option ApiCls :=
  if clsName = "CoinMarketCap" then some .coinMarketCap
  else if clsName = "CoinGecko" then some .coinGecko
  else if clsName = "FinnHub" then some .finnHub
  else if clsName = "AlphaVantage" then some .alphaVantage
  else none

/-- `get_api_cls(api_name)`: raises `RuntimeError` when the name is not a
key of `API_CLASS_MAP`, otherwise resolves the mapped class name with
`getattr`.  The function performs no I/O, which the (always empty) effect
trace makes explicit. -/
def get_api_cls (api_name : String) : Except PyError ApiCls × List Effect :=
  (match API_CLASS_MAP.lookup api_name with
   | none => .error (.RuntimeError ("\"" ++ api_name ++ "\" api is not implemented."))
   | some clsName =>
     match moduleClass clsName with
     | some cls => .ok cls
     | none => .error (.AttributeError clsName), [])

/-! ## Base adapter contract (`PriceAPI`)

`PriceAPI.__init__` stores `(symbols, currency, stocks)` and then calls
`validate_currency`, which raises `ValueError` when the currency is not in
the subclass `supported_currencies`.  Each subclass `__init__` then reads
its API key from the environment, raising `RuntimeError` when absent. -/

/-- `validate_currency`: `some` error exactly when the currency is not
supported; the message interpolates the supported list. -/
def validate_currency (currency : String) (supported : List String) : Option PyError :=
  if currency ∈ supported then none
  else some (.ValueError ("CURRENCY=" ++ currency ++ " is not supported. Options are: "
    ++ pyStrListRepr supported ++ "."))

/-! ## CoinMarketCap adapter -/

/-- `CoinMarketCap.supported_currencies`. -/
def CoinMarketCap.supported_currencies : List String := ["usd"]

/-- Constructed `CoinMarketCap` instance attributes. -/
structure CMCState where
  symbols : String
  currency : String
  stocks : String
  api_key : String
deriving DecidableEq

/-- `CoinMarketCap.__init__(symbols, currency, stocks)` over an environment:
currency validation happens first (in `PriceAPI.__init__`), then the
`CMC_API_KEY` read; the effect trace records the environment read and shows
that no network request is made during construction. -/
def CoinMarketCap.mk (env : String → Option String)
    (symbols currency stocks : String) : Except PyError CMCState × List Effect :=
  match validate_currency currency CoinMarketCap.supported_currencies with
  | some e => (.error e, [])
  | none =>
    match env "CMC_API_KEY" with
    | some k => (.ok ⟨symbols, currency, stocks, k⟩, [.envRead "CMC_API_KEY"])
    | none => (.error (.RuntimeError "CMC_API_KEY environment variable must be set."),
        [.envRead "CMC_API_KEY"])

/-- The `quote.USD` object of one entry of the CoinMarketCap `data`
mapping.  A `KeyError` anywhere along `data[s]['quote']['USD']['price']`
(or `['percent_change_24h']`) is flattened into `none` in the
corresponding field. -/
structure CMCQuote where
  price : Option Rat
  percent_change_24h : Option Rat
deriving DecidableEq

/-- A CoinMarketCap response body: either not valid JSON, or a JSON object
whose optional `data` member (`response.json().get('data', {})`) is a
mapping from symbol to quote data. -/
inductive CMCBody where
  | notJson
  | json (data : Option (List (String × CMCQuote)))
deriving DecidableEq

/-- The record built for one complete entry of the `data` mapping. -/
def cmcRecOf (x : String × CMCQuote) : Option PriceRecord :=
  match x.2.price, x.2.percent_change_24h with
  | some p, some c => some ⟨x.1, "$" ++ fmtF2comma p, fmtF1 c ++ "%"⟩
  | _, _ => none

/-- `CoinMarketCap.fetch_price_data`, parameterized by the response body of
the single GET request.  A JSON decode error is caught and the function
returns `None` (here `none`); otherwise each entry of `data` yields a
record, entries missing either quote field are skipped (`except KeyError:
continue`), and the collected list is returned. -/
def CoinMarketCap.fetch_price_data (self : CMCState) (body : CMCBody) :
    Option (List PriceRecord) :=
  match body with
  | .notJson => none
  | .json data => some ((data.getD []).filterMap cmcRecOf)

/-! ## CoinGecko + FinnHub blended adapter -/

/-- `CoinGecko.supported_currencies`. -/
def CoinGecko.supported_currencies : List String := ["usd"]

/-- The fixed, hardcoded coin-id table set by `CoinGecko.__init__`:
`symbol_map = {'bitcoin': 'BTC', 'ethereum': 'ETH'}`. -/
def cgSymbolMap : List (String × String) := [("bitcoin", "BTC"), ("ethereum", "ETH")]

/-- Constructed `CoinGecko` instance attributes. -/
structure CGState where
  symbols : String
  currency : String
  stocks : String
  symbol_map : List (String × String)
  api_key : String
deriving DecidableEq

/-- `CoinGecko.__init__`: currency validation, then the hardcoded
`symbol_map` assignment, then the `FINNHUB_API_KEY` read (the only
environment read; the commented-out `/coins/list` request is not made). -/
def CoinGecko.mk (env : String → Option String)
    (symbols currency stocks : String) : Except PyError CGState × List Effect :=
  match validate_currency currency CoinGecko.supported_currencies with
  | some e => (.error e, [])
  | none =>
    match env "FINNHUB_API_KEY" with
    | some k => (.ok ⟨symbols, currency, stocks, cgSymbolMap, k⟩,
        [.envRead "FINNHUB_API_KEY"])
    | none => (.error (.RuntimeError "FINNHUB_API_KEY environment variable must be set."),
        [.envRead "FINNHUB_API_KEY"])

/-- One entry of the CoinGecko simple-price response: the requested
currency value and the 24h change, either possibly absent. -/
structure CGEntry where
  usd : Option Rat
  usd_24h_change : Option Rat
deriving DecidableEq

/-- A FinnHub quote response: current price `c` and opening price `o`,
either possibly absent. -/
structure FHQuote where
  c : Option Rat
  o : Option Rat
deriving DecidableEq

/-- The `ids` query parameter of the simple-price request:
`','.join(list(self.symbol_map.keys()))`. -/
def CoinGecko.simplePriceIds (self : CGState) : String :=
  String.intercalate "," (self.symbol_map.map Prod.fst)

/-- The crypto loop of `CoinGecko.fetch_price_data`: one pass over the
items of the CoinGecko response.  Entries missing `usd` or
`usd_24h_change` are skipped by the `except KeyError` handler, but the
`self.symbol_map[coin_id]` lookup sits outside the `try`, so a response
key absent from the table raises. -/
def cgCryptoLoop (symbol_map : List (String × String)) :
    List (String × CGEntry) → Except PyError (List PriceRecord)
  | [] => .ok []
  | (coin_id, data) :: rest =>
    match data.usd, data.usd_24h_change with
    | some p, some ch =>
      match symbol_map.lookup coin_id with
      | none => .error (.KeyError coin_id)
      | some sym => do
        let tail ← cgCryptoLoop symbol_map rest
        .ok (⟨sym, "$" ++ fmtF2comma p, fmtF1 ch ++ "%"⟩ :: tail)
    | _, _ => cgCryptoLoop symbol_map rest

/-- The stock loop shared verbatim by `CoinGecko.fetch_price_data` and
`FinnHub.fetch_price_data`: one FinnHub quote request per ticker.  A
non-JSON body raises (the bare `.json()` call), a missing `c` or `o` key
skips the ticker, and `o = 0` raises `ZeroDivisionError` in
`100*((price_recent/price_open)-1)` — the `except KeyError` handler does
not catch it. -/
def fhStockLoop (fhBody : String → Option FHQuote) :
    List String → Except PyError (List PriceRecord)
  | [] => .ok []
  | stock :: rest =>
    match fhBody stock with
    | none => .error .JSONDecodeError
    | some response =>
      match response.c with
      | none => fhStockLoop fhBody rest
      | some price_recent =>
        match response.o with
        | none => fhStockLoop fhBody rest
        | some price_open =>
          if price_open = 0 then .error .ZeroDivisionError
          else do
            let tail ← fhStockLoop fhBody rest
            .ok (⟨stock, "$" ++ fmtF2comma price_recent,
                  fmtF1 (100 * (price_recent / price_open - 1)) ++ "%"⟩ :: tail)

/-- `CoinGecko.fetch_price_data`, parameterized by the simple-price
response body (`none` models a body that is not valid JSON) and by the
FinnHub quote body returned for each ticker.  Crypto records come first,
then one pass over `self.stocks.split(',')`. -/
def CoinGecko.fetch_price_data (self : CGState)
    (cgBody : Option (List (String × CGEntry)))
    (fhBody : String → Option FHQuote) : Except PyError (List PriceRecord) :=
  match cgBody with
  | none => .error .JSONDecodeError
  | some cgResponse => do
    let crypto ← cgCryptoLoop self.symbol_map cgResponse
    let stocks ← fhStockLoop fhBody (pySplitComma self.stocks)
    .ok (crypto ++ stocks)

/-! ## FinnHub-only adapter (present, but absent from the registry) -/

/-- `FinnHub.supported_currencies`. -/
def FinnHub.supported_currencies : List String := ["usd"]

/-- Constructed `FinnHub` instance attributes. -/
structure FHState where
  symbols : String
  currency : String
  stocks : String
  api_key : String
deriving DecidableEq

/-- `FinnHub.__init__`: currency validation, then the `FINNHUB_API_KEY`
read. -/
def FinnHub.mk (env : String → Option String)
    (symbols currency stocks : String) : Except PyError FHState × List Effect :=
  match validate_currency currency FinnHub.supported_currencies with
  | some e => (.error e, [])
  | none =>
    match env "FINNHUB_API_KEY" with
    | some k => (.ok ⟨symbols, currency, stocks, k⟩, [.envRead "FINNHUB_API_KEY"])
    | none => (.error (.RuntimeError "FINNHUB_API_KEY environment variable must be set."),
        [.envRead "FINNHUB_API_KEY"])

/-- `FinnHub.fetch_price_data`: exactly the stock loop of the blended
adapter, over `self.stocks.split(',')`. -/
def FinnHub.fetch_price_data (self : FHState)
    (fhBody : String → Option FHQuote) : Except PyError (List PriceRecord) :=
  fhStockLoop fhBody (pySplitComma self.stocks)

/-! ## AlphaVantage adapter -/

/-- `AlphaVantage.supported_currencies`. -/
def AlphaVantage.supported_currencies : List String := ["usd"]

/-- Constructed `AlphaVantage` instance attributes. -/
structure AVState where
  symbols : String
  currency : String
  stocks : String
  api_key : String
deriving DecidableEq

/-- `AlphaVantage.__init__`: currency validation, then the
`ALPHA_VANTAGE_API_KEY` read. -/
def AlphaVantage.mk (env : String → Option String)
    (symbols currency stocks : String) : Except PyError AVState × List Effect :=
  match validate_currency currency AlphaVantage.supported_currencies with
  | some e => (.error e, [])
  | none =>
    match env "ALPHA_VANTAGE_API_KEY" with
    | some k => (.ok ⟨symbols, currency, stocks, k⟩, [.envRead "ALPHA_VANTAGE_API_KEY"])
    | none => (.error
        (.RuntimeError "ALPHA_VANTAGE_API_KEY environment variable must be set."),
        [.envRead "ALPHA_VANTAGE_API_KEY"])

/-- Python `s[:10]`. -/
def pySlice10 (s : String) : String := ⟨s.data.take 10⟩

/-- One bar of the intraday time series; `open1` is the `'1. open'` string
field (kept as the parsed rational; `fetch_price_data` converts with
`float(...)` before use). -/
structure AVBar where
  open1 : Option Rat
deriving DecidableEq

/-- An AlphaVantage intraday response.  `lastRefreshed` flattens
`response['Meta Data']['3. Last Refreshed']` (a `KeyError` at either level
is `none`); `series` is `response['Time Series (30min)']`, itself possibly
absent. -/
structure AVIntraday where
  lastRefreshed : Option String
  series : Option (List (String × AVBar))
deriving DecidableEq

/-- An AlphaVantage realtime exchange-rate response; `rate` flattens
`response['Realtime Currency Exchange Rate']['5. Exchange Rate']`. -/
structure AVExchangeRate where
  rate : Option Rat
deriving DecidableEq

/-- An AlphaVantage digital-currency-daily response.  `lastRefreshed`
flattens `response['Meta Data']['6. Last Refreshed']`; `series` maps a
date to the optional `'1a. open (USD)'` field of that day. -/
structure AVDaily where
  lastRefreshed : Option String
  series : Option (List (String × Option Rat))
deriving DecidableEq

/-- The stock loop of `AlphaVantage.fetch_price_data`: one intraday request
per ticker.  The most recent bar's `'1. open'` is the current price; the
`09:30:00` bar of the same date is the opening price, defaulting to the
current price through `.get(..., {}).get('1. open', price_recent)`.  A
missing key skips the ticker; a zero opening price raises
`ZeroDivisionError` (not caught by `except KeyError`). -/
def avStockLoop (resp : String → Option AVIntraday) :
    List String → Except PyError (List PriceRecord)
  | [] => .ok []
  | stock :: rest =>
    match resp stock with
    | none => .error .JSONDecodeError
    | some response =>
      match response.lastRefreshed, response.series with
      | some last_refreshed, some series =>
        match series.lookup last_refreshed with
        | some bar =>
          match bar.open1 with
          | some price_recent =>
            let price_open :=
              (((series.lookup (pySlice10 last_refreshed ++ " 09:30:00")).getD
                ⟨none⟩).open1).getD price_recent
            if price_open = 0 then .error .ZeroDivisionError
            else do
              let tail ← avStockLoop resp rest
              .ok (⟨stock, "$" ++ fmtF2comma price_recent,
                    fmtF1 (100 * (price_recent / price_open - 1)) ++ "%"⟩ :: tail)
          | none => avStockLoop resp rest
        | none => avStockLoop resp rest
      | _, _ => avStockLoop resp rest

/-- The crypto loop of `AlphaVantage.fetch_price_data`: per symbol, one
exchange-rate request and one daily request.  The daily meta refresh date
(sliced to 10 characters) selects the day whose `'1a. open (USD)'` is the
opening price; the realtime `'5. Exchange Rate'` is the current price.  A
missing key skips the symbol; a zero opening price raises. -/
def avCryptoLoop (respCur : String → Option AVExchangeRate)
    (respDaily : String → Option AVDaily) :
    List String → Except PyError (List PriceRecord)
  | [] => .ok []
  | symbol :: rest =>
    match respCur symbol with
    | none => .error .JSONDecodeError
    | some response_current =>
      match respDaily symbol with
      | none => .error .JSONDecodeError
      | some response_daily =>
        match response_daily.lastRefreshed with
        | none => avCryptoLoop respCur respDaily rest
        | some lastRefreshed0 =>
          let last_refreshed := pySlice10 lastRefreshed0
          match response_current.rate with
          | none => avCryptoLoop respCur respDaily rest
          | some price_recent =>
            match response_daily.series with
            | none => avCryptoLoop respCur respDaily rest
            | some series =>
              match series.lookup last_refreshed with
              | none => avCryptoLoop respCur respDaily rest
              | some openField =>
                match openField with
                | none => avCryptoLoop respCur respDaily rest
                | some price_open =>
                  if price_open = 0 then .error .ZeroDivisionError
                  else do
                    let tail ← avCryptoLoop respCur respDaily rest
                    .ok (⟨symbol, "$" ++ fmtF2comma price_recent,
                          fmtF1 (100 * (price_recent / price_open - 1)) ++ "%"⟩ :: tail)

/-- `AlphaVantage.fetch_price_data`: the stock loop over
`self.stocks.split(',')` runs first, then the crypto loop over
`self.symbols.split(',')`; their records are concatenated.  An uncaught
exception in the first loop aborts the call before the second. -/
def AlphaVantage.fetch_price_data (self : AVState)
    (respIntraday : String → Option AVIntraday)
    (respCur : String → Option AVExchangeRate)
    (respDaily : String → Option AVDaily) : Except PyError (List PriceRecord) := do
  let stockRecords ← avStockLoop respIntraday (pySplitComma self.stocks)
  let cryptoRecords ← avCryptoLoop respCur respDaily (pySplitComma self.symbols)
  .ok (stockRecords ++ cryptoRecords)

/-! ## Spec-side vocabulary

Definitions below phrase the format shape named by the specification
("`$` + 2-decimal grouped number", "1-decimal percentage + `%`") and a
total record builder for complete CoinMarketCap entries; they are compared
against the source-derived functions in the theorems. -/

/-- The spec's price shape: a `$`, an integer part free of further decimal
points, one decimal point, then exactly two digits. -/
def twoDecimalPrice (s : String) : Prop :=
  ∃ a b, s.data = '$' :: (a ++ '.' :: b) ∧ b.length = 2 ∧
    (∀ c ∈ b, c.isDigit = true) ∧ '.' ∉ a

/-- The spec's 24h-change shape: a decimal-point-free prefix, one decimal
point, exactly one digit, then `%`. -/
def oneDecimalPercent (s : String) : Prop :=
  ∃ a d, s.data = a ++ ['.', d, '%'] ∧ d.isDigit = true ∧ '.' ∉ a

/-- The record produced for a CoinMarketCap entry that has both quote
fields (total, reading the fields with a default that is never used under
the completeness hypothesis). -/
def cmcRecD (x : String × CMCQuote) : PriceRecord :=
  ⟨x.1, "$" ++ fmtF2comma (x.2.price.getD 0),
    fmtF1 (x.2.percent_change_24h.getD 0) ++ "%"⟩

/-! ## Shape lemmas for the formatting helpers -/

lemma digitChar_isDigit (m : Nat) : (digitChar m).isDigit = true := by
  have h : m % 10 < 10 := Nat.mod_lt _ (by norm_num)
  unfold digitChar
  generalize hk : m % 10 = k at h ⊢
  interval_cases k <;> decide

lemma natDigitsRevAux_isDigit :
    ∀ (fuel n : Nat), ∀ c ∈ natDigitsRevAux fuel n, c.isDigit = true := by
  intro fuel
  induction fuel with
  | zero => intro n c hc; simp [natDigitsRevAux] at hc
  | succ fuel ih =>
    intro n c hc
    rw [natDigitsRevAux] at hc
    by_cases h : n < 10
    · simp [h] at hc; simp [hc, digitChar_isDigit]
    · simp [h] at hc
      rcases hc with hc | hc
      · simp [hc, digitChar_isDigit]
      · exact ih _ c hc

lemma natDigitsRev_isDigit (n : Nat) : ∀ c ∈ natDigitsRev n, c.isDigit = true :=
  natDigitsRevAux_isDigit (n + 1) n

lemma padDigitsRev_isDigit :
    ∀ (k m : Nat), ∀ c ∈ padDigitsRev k m, c.isDigit = true := by
  intro k
  induction k with
  | zero => intro m c hc; simp [padDigitsRev] at hc
  | succ k ih =>
    intro m c hc
    rw [padDigitsRev] at hc
    rcases List.mem_cons.1 hc with hc | hc
    · simp [hc, digitChar_isDigit]
    · exact ih _ c hc

lemma padDigitsRev_length : ∀ (k m : Nat), (padDigitsRev k m).length = k := by
  intro k
  induction k with
  | zero => intro m; rfl
  | succ k ih => intro m; simp [padDigitsRev, ih]

lemma commaGroupRev_mem : ∀ (ds : List Char), ∀ c ∈ commaGroupRev ds, c ∈ ds ∨ c = ',' := by
  intro ds
  induction ds using commaGroupRev.induct with
  | case1 => simp [commaGroupRev]
  | case2 a => simp [commaGroupRev]
  | case3 a b => intro c hc; simp [commaGroupRev] at hc; rcases hc with h | h <;> simp [h]
  | case4 a b c => intro x hx; simp [commaGroupRev] at hx; rcases hx with h | h | h <;> simp [h]
  | case5 a b c d rest ih =>
    intro x hx
    simp only [commaGroupRev, List.mem_cons] at hx
    rcases hx with h | h | h | h | h
    · simp [h]
    · simp [h]
    · simp [h]
    · right; exact h
    · rcases ih x h with h2 | h2
      · left; simp [List.mem_cons] at h2 ⊢; tauto
      · right; exact h2

lemma isDigit_ne_dot {c : Char} (h : c.isDigit = true) : c ≠ '.' := by
  intro he; subst he; simp [Char.isDigit] at h

/-- Characters of the grouped integer part are digits or commas; in
particular none is a decimal point. -/
lemma grouped_ne_dot {n : Nat} {c : Char}
    (h : c ∈ (commaGroupRev (natDigitsRev n)).reverse) : c ≠ '.' := by
  rw [List.mem_reverse] at h
  rcases commaGroupRev_mem _ c h with h2 | h2
  · exact isDigit_ne_dot (natDigitsRev_isDigit n c h2)
  · subst h2; decide

lemma strData_append (s t : String) : (s ++ t).data = s.data ++ t.data := by
  rcases s with ⟨l⟩; rcases t with ⟨m⟩; rfl

/-- Shape of `f"{q:,.2f}"`: integer part with no decimal point, then a
point and exactly two digits. -/
lemma fmtF2comma_shape (q : Rat) :
    ∃ a b, (fmtF2comma q).data = a ++ '.' :: b ∧ b.length = 2 ∧
      (∀ c ∈ b, c.isDigit = true) ∧ '.' ∉ a := by
  refine ⟨(if pyRound 2 q < 0 then ['-'] else []) ++
      (commaGroupRev (natDigitsRev ((pyRound 2 q).natAbs / 100))).reverse,
    (padDigitsRev 2 ((pyRound 2 q).natAbs % 100)).reverse, ?_, ?_, ?_, ?_⟩
  · simp [fmtF2comma, fmtF2commaChars, List.append_assoc]
  · simp [padDigitsRev_length]
  · intro c hc
    rw [List.mem_reverse] at hc
    exact padDigitsRev_isDigit _ _ c hc
  · intro hd
    rcases List.mem_append.1 hd with h | h
    · split at h <;> simp_all
    · exact grouped_ne_dot h rfl

/-- Shape of `"$" + f"{q:,.2f}"`, the `price` field of every record. -/
lemma twoDecimalPrice_fmt (q : Rat) : twoDecimalPrice ("$" ++ fmtF2comma q) := by
  obtain ⟨a, b, he, hl, hb, ha⟩ := fmtF2comma_shape q
  exact ⟨a, b, by rw [strData_append, he]; rfl, hl, hb, ha⟩

/-- Shape of `f"{q:.1f}"`: integer part with no decimal point, then a
point and exactly one digit. -/
lemma fmtF1_shape (q : Rat) :
    ∃ a d, (fmtF1 q).data = a ++ ['.', d] ∧ d.isDigit = true ∧ '.' ∉ a := by
  refine ⟨(if pyRound 1 q < 0 then ['-'] else []) ++
      (natDigitsRev ((pyRound 1 q).natAbs / 10)).reverse,
    digitChar ((pyRound 1 q).natAbs % 10), ?_, digitChar_isDigit _, ?_⟩
  · simp [fmtF1, fmtF1Chars, List.append_assoc]
  · intro hd
    rcases List.mem_append.1 hd with h | h
    · split at h <;> simp_all
    · rw [List.mem_reverse] at h
      exact isDigit_ne_dot (natDigitsRev_isDigit _ _ h) rfl

/-- Shape of `f"{q:.1f}" + "%"`, the `change_24h` field of every record. -/
lemma oneDecimalPercent_fmt (q : Rat) : oneDecimalPercent (fmtF1 q ++ "%") := by
  obtain ⟨a, d, he, hd, ha⟩ := fmtF1_shape q
  refine ⟨a, d, ?_, hd, ha⟩
  rw [strData_append, he]
  simp

/-! ## Helper lemmas about the CoinMarketCap parse -/

lemma cmcRecOf_eq_none {s : String} {e : CMCQuote}
    (he : e.price = none ∨ e.percent_change_24h = none) : cmcRecOf (s, e) = none := by
  rcases e with ⟨p, c⟩
  rcases he with he | he
  · cases p with
    | none => cases c <;> rfl
    | some v => simp at he
  · cases c with
    | none => cases p <;> rfl
    | some v => simp at he

lemma cmc_filterMap_complete :
    ∀ (l : List (String × CMCQuote)),
      (∀ x ∈ l, x.2.price.isSome ∧ x.2.percent_change_24h.isSome) →
      l.filterMap cmcRecOf = l.map cmcRecD := by
  intro l
  induction l with
  | nil => intro _; rfl
  | cons x rest ih =>
    intro h
    rcases x with ⟨s, e⟩
    rcases e with ⟨ep, ec⟩
    obtain ⟨hp, hc⟩ := h _ (List.mem_cons_self _ _)
    cases ep with
    | none => simp at hp
    | some p =>
      cases ec with
      | none => simp at hc
      | some c =>
        rw [List.filterMap_cons, List.map_cons,
          ih (fun y hy => h y (List.mem_cons_of_mem _ hy))]
        rfl

/-! ## Claims -/

/-- Claim C1: for the CoinGecko/FinnHub blended adapter constructed with
`stocks="AAPL"` and currency `"usd"` (any `symbols`), if CoinGecko answers
`{"bitcoin": {"usd": 50000.1234, "usd_24h_change": 2.345}}` and FinnHub
answers `{"c": 110.0, "o": 100.0}` for AAPL, then `fetch_price_data`
returns exactly `{"symbol": "BTC", "price": "$50,000.12", "change_24h":
"2.3%"}` then `{"symbol": "AAPL", "price": "$110.00", "change_24h":
"10.0%"}`, crypto records before stock records, the stock change computed
as `(current/open - 1) * 100`. -/
theorem claim_C1_blended_scenario (symbols : String) :
    CoinGecko.mk (fun n => if n = "FINNHUB_API_KEY" then some "test-key" else none)
        symbols "usd" "AAPL" =
      (.ok ⟨symbols, "usd", "AAPL", cgSymbolMap, "test-key"⟩, [.envRead "FINNHUB_API_KEY"]) ∧
    CoinGecko.fetch_price_data ⟨symbols, "usd", "AAPL", cgSymbolMap, "test-key"⟩
        (some [("bitcoin", ⟨some 50000.1234, some 2.345⟩)])
        (fun s => if s = "AAPL" then some ⟨some 110, some 100⟩ else none) =
      .ok [⟨"BTC", "$50,000.12", "2.3%"⟩, ⟨"AAPL", "$110.00", "10.0%"⟩] := by
  exact ⟨rfl, rfl⟩

/-- Witness for C1 at the concrete symbols scope `"BTC,ETH"`. -/
theorem claim_C1_blended_scenario_witness :
    CoinGecko.mk (fun n => if n = "FINNHUB_API_KEY" then some "test-key" else none)
        "BTC,ETH" "usd" "AAPL" =
      (.ok ⟨"BTC,ETH", "usd", "AAPL", cgSymbolMap, "test-key"⟩, [.envRead "FINNHUB_API_KEY"]) ∧
    CoinGecko.fetch_price_data ⟨"BTC,ETH", "usd", "AAPL", cgSymbolMap, "test-key"⟩
        (some [("bitcoin", ⟨some 50000.1234, some 2.345⟩)])
        (fun s => if s = "AAPL" then some ⟨some 110, some 100⟩ else none) =
      .ok [⟨"BTC", "$50,000.12", "2.3%"⟩, ⟨"AAPL", "$110.00", "10.0%"⟩] :=
  claim_C1_blended_scenario "BTC,ETH"

/-- Claim C2: for every well-formed CoinMarketCap response whose `data`
mapping has exactly two symbols, each with `quote.USD.price` and
`quote.USD.percent_change_24h`, `fetch_price_data` returns exactly two
records; every record's `price` is `$` + comma-grouped 2-decimal value and
its `change_24h` is a 1-decimal percentage ending in `%`. -/
theorem claim_C2_cmc_two_complete (self : CMCState) (s1 s2 : String) (p1 c1 p2 c2 : Rat) :
    ∃ l, CoinMarketCap.fetch_price_data self
        (.json (some [(s1, ⟨some p1, some c1⟩), (s2, ⟨some p2, some c2⟩)])) = some l ∧
      l.length = 2 ∧
      l = [⟨s1, "$" ++ fmtF2comma p1, fmtF1 c1 ++ "%"⟩,
           ⟨s2, "$" ++ fmtF2comma p2, fmtF1 c2 ++ "%"⟩] ∧
      ∀ r ∈ l, twoDecimalPrice r.price ∧ oneDecimalPercent r.change_24h := by
  refine ⟨[⟨s1, "$" ++ fmtF2comma p1, fmtF1 c1 ++ "%"⟩,
           ⟨s2, "$" ++ fmtF2comma p2, fmtF1 c2 ++ "%"⟩], rfl, rfl, rfl, ?_⟩
  intro r hr
  simp only [List.mem_cons, List.not_mem_nil, or_false] at hr
  rcases hr with h | h <;> subst h <;>
    exact ⟨twoDecimalPrice_fmt _, oneDecimalPercent_fmt _⟩

/-- Witness for C2 at a concrete response. -/
theorem claim_C2_cmc_two_complete_witness :
    ∃ l, CoinMarketCap.fetch_price_data ⟨"BTC,ETH", "usd", "", "wit-key"⟩
        (.json (some [("BTC", ⟨some 50000.1234, some 2.345⟩), ("ETH", ⟨some 3000, some (-1.25)⟩)])) =
        some l ∧
      l.length = 2 ∧
      l = [⟨"BTC", "$" ++ fmtF2comma 50000.1234, fmtF1 2.345 ++ "%"⟩,
           ⟨"ETH", "$" ++ fmtF2comma 3000, fmtF1 (-1.25) ++ "%"⟩] ∧
      ∀ r ∈ l, twoDecimalPrice r.price ∧ oneDecimalPercent r.change_24h :=
  claim_C2_cmc_two_complete ⟨"BTC,ETH", "usd", "", "wit-key"⟩ "BTC" "ETH" 50000.1234 2.345 3000 (-1.25)

/-- Claim C3: `get_api_cls` fails with the runtime configuration error for
every name outside `API_CLASS_MAP`, with no side effects (its effect trace
is empty), and maps each of the three registered names to its adapter
class. -/
theorem claim_C3_registry (api_name : String)
    (h : api_name ∉ API_CLASS_MAP.map Prod.fst) :
    get_api_cls api_name =
      (.error (.RuntimeError ("\"" ++ api_name ++ "\" api is not implemented.")), []) ∧
    get_api_cls "coinmarketcap" = (.ok .coinMarketCap, []) ∧
    get_api_cls "coingecko" = (.ok .coinGecko, []) ∧
    get_api_cls "alphavantage" = (.ok .alphaVantage, []) := by
  refine ⟨?_, by decide, by decide, by decide⟩
  have b1 : (api_name == "coinmarketcap") = false := by
    rw [beq_eq_false_iff_ne]; intro e; exact h (by simp [API_CLASS_MAP, e])
  have b2 : (api_name == "coingecko") = false := by
    rw [beq_eq_false_iff_ne]; intro e; exact h (by simp [API_CLASS_MAP, e])
  have b3 : (api_name == "alphavantage") = false := by
    rw [beq_eq_false_iff_ne]; intro e; exact h (by simp [API_CLASS_MAP, e])
  simp [get_api_cls, API_CLASS_MAP, List.lookup, b1, b2, b3]

/-- Witness for C3 at the unregistered name `"finnhub"` (the orphaned
adapter's natural name). -/
theorem claim_C3_registry_witness :
    "finnhub" ∉ API_CLASS_MAP.map Prod.fst ∧
    (get_api_cls "finnhub" =
      (.error (.RuntimeError ("\"" ++ "finnhub" ++ "\" api is not implemented.")), []) ∧
     get_api_cls "coinmarketcap" = (.ok .coinMarketCap, []) ∧
     get_api_cls "coingecko" = (.ok .coinGecko, []) ∧
     get_api_cls "alphavantage" = (.ok .alphaVantage, [])) :=
  ⟨by decide, claim_C3_registry "finnhub" (by decide)⟩

/-- Claim C4: constructing any of the four adapters with a currency other
than `"usd"` (each `supported_currencies` is exactly `["usd"]`) fails with
the `ValueError` that lists the allowed set, before any environment read
or network call (the effect trace is empty). -/
theorem claim_C4_currency_validation (env : String → Option String)
    (symbols currency stocks : String) (h : currency ≠ "usd") :
    CoinMarketCap.mk env symbols currency stocks =
      (.error (.ValueError ("CURRENCY=" ++ currency ++ " is not supported. Options are: "
        ++ pyStrListRepr ["usd"] ++ ".")), []) ∧
    CoinGecko.mk env symbols currency stocks =
      (.error (.ValueError ("CURRENCY=" ++ currency ++ " is not supported. Options are: "
        ++ pyStrListRepr ["usd"] ++ ".")), []) ∧
    FinnHub.mk env symbols currency stocks =
      (.error (.ValueError ("CURRENCY=" ++ currency ++ " is not supported. Options are: "
        ++ pyStrListRepr ["usd"] ++ ".")), []) ∧
    AlphaVantage.mk env symbols currency stocks =
      (.error (.ValueError ("CURRENCY=" ++ currency ++ " is not supported. Options are: "
        ++ pyStrListRepr ["usd"] ++ ".")), []) := by
  have hv : validate_currency currency ["usd"] =
      some (.ValueError ("CURRENCY=" ++ currency ++ " is not supported. Options are: "
        ++ pyStrListRepr ["usd"] ++ ".")) := by
    simp [validate_currency, h]
  refine ⟨?_, ?_, ?_, ?_⟩ <;>
    simp [CoinMarketCap.mk, CoinGecko.mk, FinnHub.mk, AlphaVantage.mk,
      CoinMarketCap.supported_currencies, CoinGecko.supported_currencies,
      FinnHub.supported_currencies, AlphaVantage.supported_currencies, hv]

/-- Witness for C4 at the concrete unsupported currency `"USD"` (case
matters: only lowercase `"usd"` is accepted). -/
theorem claim_C4_currency_validation_witness :
    "USD" ≠ "usd" ∧
    CoinMarketCap.mk (fun _ => none) "BTC" "USD" "AAPL" =
      (.error (.ValueError ("CURRENCY=" ++ "USD" ++ " is not supported. Options are: "
        ++ pyStrListRepr ["usd"] ++ ".")), []) :=
  ⟨by decide, (claim_C4_currency_validation (fun _ => none) "BTC" "USD" "AAPL" (by decide)).1⟩

/-- Counterexample to claim C5: the claim quantifies over every provider,
but only `CoinMarketCap.fetch_price_data` guards its `.json()` call.  For
the CoinGecko adapter a response body that is not valid JSON makes
`fetch_price_data` raise the JSON decode error instead of yielding no
records. -/
theorem claim_C5_counterexample :
    CoinGecko.fetch_price_data ⟨"BTC,ETH", "usd", "AAPL", cgSymbolMap, "cex-key"⟩ none
      (fun _ => some ⟨some 1, some 1⟩) = .error .JSONDecodeError := by decide

/-- Claim C5 (amended): only the CoinMarketCap adapter tolerates a
non-JSON response body — it logs and returns an absent value (`None`,
here `none`), not an empty list; the CoinGecko, FinnHub and AlphaVantage
adapters propagate the JSON decode error from their bare `.json()`
calls. -/
theorem claim_C5_amended :
    (∀ self : CMCState, CoinMarketCap.fetch_price_data self .notJson = none) ∧
    (∀ (self : CGState) (fhBody : String → Option FHQuote),
      CoinGecko.fetch_price_data self none fhBody = .error .JSONDecodeError) ∧
    (∀ symbols currency api_key : String,
      FinnHub.fetch_price_data ⟨symbols, currency, "AAPL", api_key⟩ (fun _ => none) =
        .error .JSONDecodeError) ∧
    (∀ symbols currency api_key : String,
      AlphaVantage.fetch_price_data ⟨symbols, currency, "AAPL", api_key⟩
        (fun _ => none) (fun _ => some ⟨none⟩) (fun _ => some ⟨none, none⟩) =
        .error .JSONDecodeError) :=
  ⟨fun _ => rfl, fun _ _ => rfl, fun _ _ _ => rfl, fun _ _ _ => rfl⟩

/-- Witness for the amended C5 at concrete adapters. -/
theorem claim_C5_amended_witness :
    CoinMarketCap.fetch_price_data ⟨"BTC,ETH", "usd", "", "wit-key2"⟩ .notJson = none ∧
    FinnHub.fetch_price_data ⟨"", "usd", "AAPL", "wit-key2"⟩ (fun _ => none) =
      .error .JSONDecodeError :=
  ⟨claim_C5_amended.1 ⟨"BTC,ETH", "usd", "", "wit-key2"⟩,
   claim_C5_amended.2.2.1 "" "usd" "wit-key2"⟩

/-- Claim C6: a CoinMarketCap response in which one entry lacks
`quote.USD.percent_change_24h` or `quote.USD.price` while every other
entry is complete yields, without raising, exactly one record per
complete entry; the incomplete entry is silently dropped (with
`pre = post = []` this also covers the all-skipped case, which returns an
empty list rather than an error). -/
theorem claim_C6_cmc_incomplete_skipped (self : CMCState)
    (pre post : List (String × CMCQuote)) (s : String) (e : CMCQuote)
    (he : e.price = none ∨ e.percent_change_24h = none)
    (hc : ∀ x ∈ pre ++ post, x.2.price.isSome ∧ x.2.percent_change_24h.isSome) :
    CoinMarketCap.fetch_price_data self (.json (some (pre ++ (s, e) :: post))) =
      some ((pre ++ post).map cmcRecD) := by
  show some (List.filterMap cmcRecOf (pre ++ (s, e) :: post)) = _
  rw [List.filterMap_append, List.filterMap_cons, cmcRecOf_eq_none he,
    ← List.filterMap_append, cmc_filterMap_complete _ hc]

/-- Witness for C6: `{"BTC": full quote, "ETH": price but no change}`
produces only the BTC record. -/
theorem claim_C6_cmc_incomplete_skipped_witness :
    ((⟨some 3000, none⟩ : CMCQuote).price = none ∨
      (⟨some 3000, none⟩ : CMCQuote).percent_change_24h = none) ∧
    (∀ x ∈ [("BTC", (⟨some 50000.1234, some 2.345⟩ : CMCQuote))] ++ [],
      x.2.price.isSome ∧ x.2.percent_change_24h.isSome) ∧
    CoinMarketCap.fetch_price_data ⟨"BTC,ETH", "usd", "", "wit-key3"⟩
        (.json (some ([("BTC", ⟨some 50000.1234, some 2.345⟩)] ++
          ("ETH", ⟨some 3000, none⟩) :: []))) =
      some (([("BTC", (⟨some 50000.1234, some 2.345⟩ : CMCQuote))] ++ []).map cmcRecD) :=
  ⟨by decide, by decide,
   claim_C6_cmc_incomplete_skipped ⟨"BTC,ETH", "usd", "", "wit-key3"⟩
     [("BTC", ⟨some 50000.1234, some 2.345⟩)] [] "ETH" ⟨some 3000, none⟩
     (by decide) (by decide)⟩

/-- Claim C10: a FinnHub quote response containing both `c` and `o` with
`o = 0` makes the stock branch raise a division-by-zero error instead of
skipping the ticker, both in the blended CoinGecko adapter and in the
FinnHub-only adapter: the `except KeyError` recovery does not cover
arithmetic failure on present fields. -/
theorem claim_C10_zero_open_raises :
    CoinGecko.fetch_price_data ⟨"BTC,ETH", "usd", "AAPL", cgSymbolMap, "zero-key"⟩
      (some []) (fun _ => some ⟨some 110, some 0⟩) = .error .ZeroDivisionError ∧
    FinnHub.fetch_price_data ⟨"", "usd", "AAPL", "zero-key"⟩
      (fun _ => some ⟨some 110, some 0⟩) = .error .ZeroDivisionError := by
  exact ⟨by decide, by decide⟩

/-- Counterexample to claim C7: the claim quantifies over every intraday
response with the 9:30 bar absent and the most recent bar's opening price
present, but when that price is `0` the fallback makes `price_open = 0`
and `float(price_recent)/float(price_open)` raises `ZeroDivisionError`
(uncaught by `except KeyError`), so no record with change `"0.0%"` is
emitted. -/
theorem claim_C7_counterexample :
    AlphaVantage.fetch_price_data ⟨"BTC", "usd", "AAPL", "cex-key7"⟩
      (fun s => if s = "AAPL" then
        some ⟨some "2024-06-03 16:00:00", some [("2024-06-03 16:00:00", ⟨some 0⟩)]⟩ else none)
      (fun _ => some ⟨none⟩) (fun _ => some ⟨none, none⟩) =
    .error .ZeroDivisionError := by decide

/-- Claim C7 (amended): for the AlphaVantage stock branch, whenever the
9:30 AM bar of the most recent refresh date is absent while the refresh
timestamp and its bar's opening price are present — and that price is
nonzero — the opening price falls back to the most recent price itself
and the emitted record's `change_24h` is exactly `"0.0%"`. -/
theorem claim_C7_amended (api_key last_refreshed : String) (p : Rat)
    (series : List (String × AVBar))
    (hp : p ≠ 0)
    (hlr : series.lookup last_refreshed = some ⟨some p⟩)
    (h930 : series.lookup (pySlice10 last_refreshed ++ " 09:30:00") = none) :
    AlphaVantage.fetch_price_data ⟨"BTC", "usd", "AAPL", api_key⟩
      (fun _ => some ⟨some last_refreshed, some series⟩)
      (fun _ => some ⟨none⟩) (fun _ => some ⟨none, none⟩) =
    .ok [⟨"AAPL", "$" ++ fmtF2comma p, "0.0%"⟩] := by
  have hsplitS : pySplitComma "AAPL" = ["AAPL"] := by decide
  have hsplitC : pySplitComma "BTC" = ["BTC"] := by decide
  have hchange : (100 : Rat) * (p / p - 1) = 0 := by rw [div_self hp]; ring
  have hfmt : fmtF1 (100 * (p / p - 1)) ++ "%" = "0.0%" := by rw [hchange]; decide
  simp only [AlphaVantage.fetch_price_data, hsplitS, hsplitC, avStockLoop, avCryptoLoop,
    hlr, h930, Option.getD_none, Option.getD_some, if_neg hp, hfmt]
  rfl

/-- Witness for the amended C7 at a concrete intraday series with no 9:30
bar. -/
theorem claim_C7_amended_witness :
    ((123 : Rat) ≠ 0 ∧
     [("2023-01-05 16:00:00", (⟨some 123⟩ : AVBar))].lookup "2023-01-05 16:00:00" =
       some ⟨some 123⟩ ∧
     [("2023-01-05 16:00:00", (⟨some 123⟩ : AVBar))].lookup
       (pySlice10 "2023-01-05 16:00:00" ++ " 09:30:00") = none) ∧
    AlphaVantage.fetch_price_data ⟨"BTC", "usd", "AAPL", "wit-key7"⟩
      (fun _ => some ⟨some "2023-01-05 16:00:00",
        some [("2023-01-05 16:00:00", ⟨some 123⟩)]⟩)
      (fun _ => some ⟨none⟩) (fun _ => some ⟨none, none⟩) =
    .ok [⟨"AAPL", "$" ++ fmtF2comma 123, "0.0%"⟩] :=
  ⟨⟨by decide, by decide, by decide⟩,
   claim_C7_amended "wit-key7" "2023-01-05 16:00:00" 123
     [("2023-01-05 16:00:00", ⟨some 123⟩)] (by decide) (by decide) (by decide)⟩

/-- Claim C8: the crypto branch of the CoinGecko adapter is independent of
the requested symbols scope — two constructions differing only in
`symbols` produce states whose `fetch_price_data` agrees on every pair of
provider responses, and the simple-price query always requests exactly the
hardcoded pair `bitcoin,ethereum` (mapped to `BTC`/`ETH`). -/
theorem claim_C8_symbols_scope_ignored (env : String → Option String)
    (s1 s2 currency stocks : String)
    (st1 st2 : CGState) (tr1 tr2 : List Effect)
    (h1 : CoinGecko.mk env s1 currency stocks = (.ok st1, tr1))
    (h2 : CoinGecko.mk env s2 currency stocks = (.ok st2, tr2))
    (cgBody : Option (List (String × CGEntry))) (fhBody : String → Option FHQuote) :
    CoinGecko.fetch_price_data st1 cgBody fhBody =
      CoinGecko.fetch_price_data st2 cgBody fhBody ∧
    CoinGecko.simplePriceIds st1 = "bitcoin,ethereum" := by
  unfold CoinGecko.mk at h1 h2
  cases hv : validate_currency currency CoinGecko.supported_currencies with
  | some e => rw [hv] at h1; simp at h1
  | none =>
    rw [hv] at h1 h2
    cases he : env "FINNHUB_API_KEY" with
    | none => rw [he] at h1; simp at h1
    | some k =>
      rw [he] at h1 h2
      simp only [Prod.mk.injEq] at h1 h2
      obtain ⟨ha1, -⟩ := h1
      obtain ⟨ha2, -⟩ := h2
      injection ha1 with ha1
      injection ha2 with ha2
      subst ha1
      subst ha2
      constructor
      · cases cgBody <;> rfl
      · rfl

/-- Witness for C8: constructions with symbol scopes `"BTC"` and `"DOGE"`
behave identically. -/
theorem claim_C8_symbols_scope_ignored_witness :
    (CoinGecko.mk (fun _ => some "wit-key8") "BTC" "usd" "AAPL" =
      (.ok ⟨"BTC", "usd", "AAPL", cgSymbolMap, "wit-key8"⟩, [.envRead "FINNHUB_API_KEY"]) ∧
     CoinGecko.mk (fun _ => some "wit-key8") "DOGE" "usd" "AAPL" =
      (.ok ⟨"DOGE", "usd", "AAPL", cgSymbolMap, "wit-key8"⟩, [.envRead "FINNHUB_API_KEY"])) ∧
    (CoinGecko.fetch_price_data ⟨"BTC", "usd", "AAPL", cgSymbolMap, "wit-key8"⟩
        (some [("bitcoin", ⟨some 2, some 3⟩)]) (fun _ => none) =
      CoinGecko.fetch_price_data ⟨"DOGE", "usd", "AAPL", cgSymbolMap, "wit-key8"⟩
        (some [("bitcoin", ⟨some 2, some 3⟩)]) (fun _ => none) ∧
     CoinGecko.simplePriceIds ⟨"BTC", "usd", "AAPL", cgSymbolMap, "wit-key8"⟩ =
       "bitcoin,ethereum") :=
  ⟨⟨by decide, by decide⟩,
   claim_C8_symbols_scope_ignored (fun _ => some "wit-key8") "BTC" "DOGE" "usd" "AAPL"
     ⟨"BTC", "usd", "AAPL", cgSymbolMap, "wit-key8"⟩
     ⟨"DOGE", "usd", "AAPL", cgSymbolMap, "wit-key8"⟩
     [.envRead "FINNHUB_API_KEY"] [.envRead "FINNHUB_API_KEY"]
     (by decide) (by decide)
     (some [("bitcoin", ⟨some 2, some 3⟩)]) (fun _ => none)⟩

/-- Claim C9: with a valid currency, construction of each adapter under an
environment lacking its credential variable (`CMC_API_KEY` for
CoinMarketCap, `FINNHUB_API_KEY` for CoinGecko and FinnHub,
`ALPHA_VANTAGE_API_KEY` for AlphaVantage) fails with the configuration
`RuntimeError`; under an environment providing it, construction succeeds.
In both cases the effect trace is exactly one environment read of that
variable and no network request. -/
theorem claim_C9_credential_at_construction (envMissing envSet : String → Option String)
    (symbols stocks v : String)
    (hm : ∀ k, envMissing k = none) (hs : ∀ k, envSet k = some v) :
    (CoinMarketCap.mk envMissing symbols "usd" stocks =
      (.error (.RuntimeError "CMC_API_KEY environment variable must be set."),
        [.envRead "CMC_API_KEY"]) ∧
     CoinMarketCap.mk envSet symbols "usd" stocks =
      (.ok ⟨symbols, "usd", stocks, v⟩, [.envRead "CMC_API_KEY"])) ∧
    (CoinGecko.mk envMissing symbols "usd" stocks =
      (.error (.RuntimeError "FINNHUB_API_KEY environment variable must be set."),
        [.envRead "FINNHUB_API_KEY"]) ∧
     CoinGecko.mk envSet symbols "usd" stocks =
      (.ok ⟨symbols, "usd", stocks, cgSymbolMap, v⟩, [.envRead "FINNHUB_API_KEY"])) ∧
    (FinnHub.mk envMissing symbols "usd" stocks =
      (.error (.RuntimeError "FINNHUB_API_KEY environment variable must be set."),
        [.envRead "FINNHUB_API_KEY"]) ∧
     FinnHub.mk envSet symbols "usd" stocks =
      (.ok ⟨symbols, "usd", stocks, v⟩, [.envRead "FINNHUB_API_KEY"])) ∧
    (AlphaVantage.mk envMissing symbols "usd" stocks =
      (.error (.RuntimeError "ALPHA_VANTAGE_API_KEY environment variable must be set."),
        [.envRead "ALPHA_VANTAGE_API_KEY"]) ∧
     AlphaVantage.mk envSet symbols "usd" stocks =
      (.ok ⟨symbols, "usd", stocks, v⟩, [.envRead "ALPHA_VANTAGE_API_KEY"])) := by
  refine ⟨⟨?_, ?_⟩, ⟨?_, ?_⟩, ⟨?_, ?_⟩, ⟨?_, ?_⟩⟩ <;>
    simp [CoinMarketCap.mk, CoinGecko.mk, FinnHub.mk, AlphaVantage.mk, validate_currency,
      CoinMarketCap.supported_currencies, CoinGecko.supported_currencies,
      FinnHub.supported_currencies, AlphaVantage.supported_currencies, hm, hs]

/-- Witness for C9 at an empty environment and an environment binding
every name. -/
theorem claim_C9_credential_at_construction_witness :
    (∀ k, (fun (_ : String) => (none : Option String)) k = none) ∧
    (∀ k, (fun (_ : String) => some "wit-key9") k = some "wit-key9") ∧
    (CoinMarketCap.mk (fun _ => none) "BTC,ETH" "usd" "AAPL" =
      (.error (.RuntimeError "CMC_API_KEY environment variable must be set."),
        [.envRead "CMC_API_KEY"]) ∧
     CoinMarketCap.mk (fun _ => some "wit-key9") "BTC,ETH" "usd" "AAPL" =
      (.ok ⟨"BTC,ETH", "usd", "AAPL", "wit-key9"⟩, [.envRead "CMC_API_KEY"])) :=
  ⟨fun _ => rfl, fun _ => rfl,
   (claim_C9_credential_at_construction (fun _ => none) (fun _ => some "wit-key9")
     "BTC,ETH" "AAPL" "wit-key9" (fun _ => rfl) (fun _ => rfl)).1⟩
